import Mathlib

/-!
Verification of the biorad1sc_reader decoder against its specification.

The Python sources are shallowly embedded:
 - `bytes` objects become `List ℕ` (each element one byte value);
 - Python `str` values become `List ℕ` of Unicode code points;
 - fallible code (code that can raise an exception) returns `Option`/`Except`;
 - `struct.unpack` semantics (which demand an exact-length buffer) are
   modelled faithfully, including the error case.
-/

namespace Biorad

/-- Code points of a string literal, used to transcribe Python string
constants from the source. -/
def strCp (s : String) : List ℕ :=
  s.data.map Char.toNat

/-- Python slice `l[a:b]` for non-negative `a`, `b` (out-of-range indices
clamp, they never raise). -/
def pySlice (l : List ℕ) (a b : ℕ) : List ℕ :=
  (l.drop a).take (b - a)

/-- Python slice `l[a:b]` for possibly negative `a`, `b`: a negative index
counts from the end of the list, and everything clamps into range. -/
def pySliceZ (l : List ℤ) (a b : ℤ) : List ℤ :=
  let n : ℤ := l.length
  let a' : ℕ := (if a < 0 then max (n + a) 0 else min a n).toNat
  let b' : ℕ := (if b < 0 then max (n + b) 0 else min b n).toNat
  (l.drop a').take (b' - a')

/-- Model of `bytes.rstrip(b"\x00")`: drop trailing NUL bytes. -/
def rstripNul (bs : List ℕ) : List ℕ :=
  (bs.reverse.dropWhile (fun b => b = 0)).reverse

/-- Model of `parsing.is_ascii`: all bytes are printable ASCII or one of
NUL, TAB, LF, CR. -/
def is_ascii (bs : List ℕ) : Bool :=
  bs.all (fun b => b = 0 || b = 9 || b = 10 || b = 13 || (32 ≤ b && b < 127))

/-- Little-endian value of a word of bytes (first byte least significant),
as `struct.unpack` computes it for formats `H`/`I`/`Q` with `<`. -/
def leValue (bs : List ℕ) : ℕ :=
  bs.foldr (fun b acc => b + 256 * acc) 0

/-- Read `num` consecutive `w`-byte little-endian words from the front of
a byte list (the decoding loop of `struct.unpack` for format `fmt*num`). -/
def leWordsN : ℕ → ℕ → List ℕ → List ℕ
  | 0, _, _ => []
  | num + 1, w, bs => leValue (bs.take w) :: leWordsN num w (bs.drop w)

/-- Semantics of `struct.unpack(endian + fmt*(len//w), byte_stream)`: computes
`num = len // w` words but raises `struct.error` (here: `none`) unless the
buffer length is exactly `num * w`, i.e. an exact multiple of `w`. -/
def structUnpack (w : ℕ) (bs : List ℕ) : Option (List ℕ) :=
  let num := bs.length / w
  if bs.length = num * w then some (leWordsN num w bs) else none

/-- Model of `parsing.unpack_uint8` (format `"B"*len`, always exact). -/
def unpack_uint8 (bs : List ℕ) : List ℕ := bs

/-- Model of `parsing.unpack_uint16` with `endian="<"`. -/
def unpack_uint16 (bs : List ℕ) : Option (List ℕ) := structUnpack 2 bs

/-- Model of `parsing.unpack_uint32` with `endian="<"`. -/
def unpack_uint32 (bs : List ℕ) : Option (List ℕ) := structUnpack 4 bs

/-- Model of `parsing.unpack_uint64` with `endian="<"`. -/
def unpack_uint64 (bs : List ℕ) : Option (List ℕ) := structUnpack 8 bs

/-- Model of `parsing.unpack_double` with `endian="<"`.  Each decoded element is
represented by its 64-bit IEEE-754 bit pattern; none of the verified
claims inspects the real-number value of a double. -/
def unpack_double (bs : List ℕ) : Option (List ℕ) := structUnpack 8 bs

/-- Model of `bytes.decode("utf-8", errors)`: UTF-8 decoding of a byte list into a
code-point list.  `repl = true` models `errors="replace"` (malformed input
yields U+FFFD), `repl = false` models `errors="ignore"` (malformed input
is skipped).  On a malformed sequence the lead byte is consumed and
decoding resumes at the next byte. -/
def utf8DecodeAux : ℕ → Bool → List ℕ → List ℕ
  | 0, _, _ => []
  | _ + 1, _, [] => []
  | fuel + 1, repl, b :: rest =>
    if b < 128 then
      b :: utf8DecodeAux fuel repl rest
    else if 194 ≤ b ∧ b ≤ 223 then
      match rest with
      | b2 :: rest2 =>
        if 128 ≤ b2 ∧ b2 ≤ 191 then
          ((b - 192) * 64 + (b2 - 128)) :: utf8DecodeAux fuel repl rest2
        else
          (if repl then [0xFFFD] else []) ++ utf8DecodeAux fuel repl (b2 :: rest2)
      | [] => if repl then [0xFFFD] else []
    else if 224 ≤ b ∧ b ≤ 239 then
      match rest with
      | b2 :: b3 :: rest3 =>
        if ((if b = 224 then 160 else 128) ≤ b2 ∧
            b2 ≤ (if b = 237 then 159 else 191)) ∧
           (128 ≤ b3 ∧ b3 ≤ 191) then
          ((b - 224) * 4096 + (b2 - 128) * 64 + (b3 - 128)) ::
            utf8DecodeAux fuel repl rest3
        else
          (if repl then [0xFFFD] else []) ++ utf8DecodeAux fuel repl (b2 :: b3 :: rest3)
      | [b2] => (if repl then [0xFFFD] else []) ++ utf8DecodeAux fuel repl [b2]
      | [] => if repl then [0xFFFD] else []
    else if 240 ≤ b ∧ b ≤ 244 then
      match rest with
      | b2 :: b3 :: b4 :: rest4 =>
        if ((if b = 240 then 144 else 128) ≤ b2 ∧
            b2 ≤ (if b = 244 then 143 else 191)) ∧
           (128 ≤ b3 ∧ b3 ≤ 191) ∧ (128 ≤ b4 ∧ b4 ≤ 191) then
          ((b - 240) * 262144 + (b2 - 128) * 4096 + (b3 - 128) * 64 +
              (b4 - 128)) :: utf8DecodeAux fuel repl rest4
        else
          (if repl then [0xFFFD] else []) ++
            utf8DecodeAux fuel repl (b2 :: b3 :: b4 :: rest4)
      | [b2, b3] => (if repl then [0xFFFD] else []) ++ utf8DecodeAux fuel repl [b2, b3]
      | [b2] => (if repl then [0xFFFD] else []) ++ utf8DecodeAux fuel repl [b2]
      | [] => if repl then [0xFFFD] else []
    else
      (if repl then [0xFFFD] else []) ++ utf8DecodeAux fuel repl rest

/-- Model of `bytes.decode("utf-8", errors)` (see `utf8DecodeAux`; the fuel
`bs.length` is enough since every step consumes at least one byte). -/
def utf8Decode (repl : Bool) (bs : List ℕ) : List ℕ :=
  utf8DecodeAux bs.length repl bs

/-- Model of `parsing.unpack_string`: `byte_stream.decode("utf-8", "replace")`. -/
def unpack_string (bs : List ℕ) : List ℕ := utf8Decode true bs

/-! ### Model of `time.gmtime` + `time.asctime` (UTC timestamp strings) -/

/-- Gregorian leap-year rule used by `time.gmtime`. -/
def isLeap (y : ℕ) : Bool := (y % 4 = 0 && y % 100 ≠ 0) || y % 400 = 0

/-- Days in year `y`. -/
def daysInYear (y : ℕ) : ℕ := if isLeap y then 366 else 365

/-- Year-walking loop of `civilYear`; each step strips one whole year, so
fuel `days + 1` always suffices. -/
def civilYearAux : ℕ → ℕ → ℕ → ℕ × ℕ
  | 0, y, days => (y, days)
  | fuel + 1, y, days =>
    if daysInYear y ≤ days then civilYearAux fuel (y + 1) (days - daysInYear y)
    else (y, days)

/-- Convert a day count since 1970-01-01 into (year, day-of-year). -/
def civilYear (y days : ℕ) : ℕ × ℕ :=
  civilYearAux (days + 1) y days

/-- Month lengths for year `y`. -/
def monthLengths (y : ℕ) : List ℕ :=
  [31, if isLeap y then 29 else 28, 31, 30, 31, 30, 31, 31, 30, 31, 30, 31]

/-- Locate (month index from 0, day-of-month from 0) for a day-of-year. -/
def monthFromYday : List ℕ → ℕ → ℕ × ℕ
  | [], d => (0, d)
  | m :: ms, d =>
    if d < m then (0, d)
    else
      let p := monthFromYday ms (d - m)
      (p.1 + 1, p.2)

/-- Digit-peeling loop of `natDigits` (fuel `n + 1` always suffices). -/
def natDigitsAux : ℕ → ℕ → List ℕ
  | 0, _ => []
  | fuel + 1, n =>
    if n < 10 then [48 + n] else natDigitsAux fuel (n / 10) ++ [48 + n % 10]

/-- ASCII digits of `n`, most significant first. -/
def natDigits (n : ℕ) : List ℕ :=
  natDigitsAux (n + 1) n

/-- Format `"%.2d"`: zero-padded two-digit field. -/
def pad2 (n : ℕ) : List ℕ := if n < 10 then [48, 48 + n] else natDigits n

/-- Format `"%2d"`: space-padded two-digit field (as `asctime` prints the day). -/
def padSp2 (n : ℕ) : List ℕ := if n < 10 then [32, 48 + n] else natDigits n

/-- Weekday abbreviations indexed by `tm_wday` (Monday = 0). -/
def weekdayNames : List (List ℕ) :=
  [strCp "Mon", strCp "Tue", strCp "Wed", strCp "Thu", strCp "Fri",
   strCp "Sat", strCp "Sun"]

/-- Month abbreviations indexed from 0. -/
def monthNames : List (List ℕ) :=
  [strCp "Jan", strCp "Feb", strCp "Mar", strCp "Apr", strCp "May",
   strCp "Jun", strCp "Jul", strCp "Aug", strCp "Sep", strCp "Oct",
   strCp "Nov", strCp "Dec"]

/-- Model of `time.asctime(time.gmtime(t))` for a non-negative Unix timestamp `t`:
`"Www Mmm DD hh:mm:ss yyyy"` (day space-padded). 1970-01-01 had
`tm_wday = 3` (Thursday). -/
def gmtimeAsctime (t : ℕ) : List ℕ :=
  let days := t / 86400
  let secs := t % 86400
  let wd := (days + 3) % 7
  let yp := civilYear 1970 days
  let mp := monthFromYday (monthLengths yp.1) yp.2
  (weekdayNames.getD wd []) ++ [32] ++
    (monthNames.getD mp.1 []) ++ [32] ++ padSp2 (mp.2 + 1) ++ [32] ++
    pad2 (secs / 3600) ++ [58] ++ pad2 (secs % 3600 / 60) ++ [58] ++
    pad2 (secs % 60) ++ [32] ++ natDigits yp.1

/-! ### Constant tables from `constants.py` -/

/-- Model of `constants.REGION_DATA_TYPES` (descriptive name per data-type code). -/
def REGION_DATA_TYPES (n : ℕ) : Option (List ℕ) :=
  match n with
  | 1 => some (strCp "byte")
  | 2 => some (strCp "byte/ASCII")
  | 3 => some (strCp "u?int16")
  | 4 => some (strCp "uint16")
  | 5 => some (strCp "u?int32")
  | 6 => some (strCp "u?int32")
  | 7 => some (strCp "uint64")
  | 9 => some (strCp "uint32")
  | 10 => some (strCp "8-byte - float?")
  | 15 => some (strCp "uint32 Reference")
  | 17 => some (strCp "uint32 Reference")
  | 21 => some (strCp "u?int32")
  | 131 => some (strCp "12-byte??")
  | 1001 => some (strCp "8- or 24-byte??")
  | 1002 => some (strCp "24-byte??")
  | 1003 => some (strCp "8-byte (x,y)??")
  | 1004 => some (strCp "8- or 16-byte (x1,y1,x2,y2)??")
  | 1005 => some (strCp "64-byte??")
  | 1006 => some (strCp "640-byte??")
  | 1010 => some (strCp "144-byte??")
  | 1016 => some (strCp "440-byte??")
  | 1020 => some (strCp "32-byte??")
  | 1027 => some (strCp "8-byte??")
  | 1032 => some (strCp "12-byte??")
  | _ => none

/-! ### Data model of the decoder -/

/-- One entry of a decoded Type-100 data key
(`parsing.process_payload_type100`): the schema of one region. -/
structure RegionSchemaEntry where
  data_type : ℕ
  label : List ℕ
  index : ℕ
  num_words : ℕ
  byte_offset : ℕ
  word_size : ℕ
  ref_field_type : ℕ
deriving Repr, DecidableEq

/-- One entry of a decoded Type-101 item schema
(`parsing.process_payload_type101` `items` values). -/
structure ItemSchemaEntry where
  num_regions : ℕ
  data_key_ref : ℕ
  total_bytes : ℕ
  label : List ℕ
deriving Repr, DecidableEq

/-- One record of the field index (`field_ids` values): a framed field,
plus the decoded `regions` key present once a Type-100 payload has been
processed into it. -/
structure FieldInfo where
  ftype : ℕ
  fid : ℕ
  payload : List ℕ
  regions : Option (List RegionSchemaEntry)
deriving Repr, DecidableEq

/-- A Python value as produced for `region_data["proc"]`: `None`, an int
scalar, an int tuple, a string, or a double scalar/tuple (doubles carried
as 64-bit IEEE-754 bit patterns). -/
inductive PyVal where
  | vNone : PyVal
  | vInt : ℕ → PyVal
  | vIntTup : List ℕ → PyVal
  | vStr : List ℕ → PyVal
  | vDbl : ℕ → PyVal
  | vDblTup : List ℕ → PyVal
deriving Repr, DecidableEq

/-- The `region_data` dict of `parsing.process_data_region`, parametric in the
type of the `interp` entry (tied by `Interp` below). -/
structure RegionDataF (α : Type) where
  raw : List ℕ
  proc : PyVal
  interp : α
deriving Repr

/-- One element of the `regions_list` built by
`parsing.process_payload_data_container`, parametric in the `interp`
type. -/
structure RegionOutF (α : Type) where
  label : List ℕ
  data : RegionDataF α
  dtype : Option (List ℕ)
  dtype_num : ℕ
  word_size : ℕ
  num_words : ℕ
  region_idx : ℕ
  key_iter : ℕ
deriving Repr

/-- The `region_data["interp"]` value: `None`, a resolved label string, or the
nested-item dict `{data, label, id, type}` produced when a Reference
region points at another data container. -/
inductive Interp where
  | iNone : Interp
  | iStr : List ℕ → Interp
  | iNested : List (RegionOutF Interp) → List ℕ → ℕ → ℕ → Interp

/-- The concrete `region_data` dict. -/
abbrev RegionData := RegionDataF Interp

/-- The concrete `regions_list` element. -/
abbrev RegionOut := RegionOutF Interp

/-- The field index `field_ids` (field ID → field record). -/
abbrev FieldIndex := ℕ → Option FieldInfo

/-- The active item-schema map `data_types` (field type → item schema). -/
abbrev DataTypes := ℕ → Option ItemSchemaEntry

/-- Python singleton collapse `t[0] if len(t) == 1 else t` for int
tuples. -/
def collapseInt (l : List ℕ) : PyVal :=
  match l with
  | [x] => .vInt x
  | _ => .vIntTup l

/-- Python singleton collapse for double tuples. -/
def collapseDbl (l : List ℕ) : PyVal :=
  match l with
  | [x] => .vDbl x
  | _ => .vDblTup l

/-- Model of `constants.REGION_DATA_TYPE_BYTES` (word size per data-type code,
used by the zero-word-size repair). -/
def REGION_DATA_TYPE_BYTES (n : ℕ) : Option ℕ :=
  match n with
  | 1 => some 1
  | 2 => some 1
  | 3 => some 2
  | 4 => some 2
  | 5 => some 4
  | 6 => some 4
  | 7 => some 8
  | 9 => some 4
  | 10 => some 8
  | 15 => some 4
  | 17 => some 4
  | 21 => some 4
  | 131 => some 12
  | _ => none

/-! ### Zero-word-size repair (`parsing.fix_wordsize_zero`) -/

/-- Ordered insertion used by `pySort`. -/
def insertLe (x : ℕ) : List ℕ → List ℕ
  | [] => [x]
  | y :: ys => if x ≤ y then x :: y :: ys else y :: insertLe x ys

/-- Model of `list.sort()`: ascending sort of a list of ints. -/
def pySort (l : List ℕ) : List ℕ := l.foldr insertLe []

/-- Model of `parsing.fix_wordsize_zero`: repair the `word_size` of every region
whose declared `word_size` is 0, preferring the static
`REGION_DATA_TYPE_BYTES` table and falling back to the gap between sorted
byte offsets (with `data_key_total_bytes` as the sentinel offset past the
last region), divided by `num_words`.  `region_sizes` is a dict keyed by
byte offset (last write wins); a missing key (KeyError) or a zero
`num_words` (ZeroDivisionError) raises, i.e. returns `none`. -/
def fixOneRegion (region_sizes : ℕ → Option ℕ)
    (pay_reg : RegionSchemaEntry) : Option RegionSchemaEntry :=
  if pay_reg.word_size = 0 then
    match REGION_DATA_TYPE_BYTES pay_reg.data_type with
    | some w => some { pay_reg with word_size := w }
    | none =>
      match region_sizes pay_reg.byte_offset with
      | none => none
      | some sz =>
        if pay_reg.num_words = 0 then none
        else some { pay_reg with word_size := sz / pay_reg.num_words }
  else some pay_reg

/-- The `for pay_reg_num in field_payload_regions` loop of
`fix_wordsize_zero`, over the regions in document order. -/
def fixRegionsLoop (region_sizes : ℕ → Option ℕ) :
    List RegionSchemaEntry → Option (List RegionSchemaEntry)
  | [] => some []
  | r :: rs =>
    match fixOneRegion region_sizes r with
    | none => none
    | some r1 =>
      match fixRegionsLoop region_sizes rs with
      | none => none
      | some rest => some (r1 :: rest)

def fix_wordsize_zero (field_payload_regions : List RegionSchemaEntry)
    (byte_offsets : List ℕ) (data_key_total_bytes : ℕ) :
    Option (List RegionSchemaEntry) :=
  let offs := pySort byte_offsets ++ [data_key_total_bytes]
  let region_sizes : ℕ → Option ℕ := fun k =>
    ((offs.zip offs.tail).map (fun p => (p.1, p.2 - p.1))).reverse.lookup k
  fixRegionsLoop region_sizes field_payload_regions

/-- Entry-building loop of `parsing.process_payload_type100`: one
`RegionSchemaEntry` per 36-byte record, labels resolved through
`field_ids` (a missing referenced field raises KeyError, i.e. `none`). -/
def type100Entries (u16s u32s : List ℕ) (field_ids : FieldIndex) :
    ℕ → ℕ → Option (List RegionSchemaEntry)
  | _, 0 => some []
  | i, cnt + 1 => do
    let u16start := i * 18
    let u32start := i * 9
    let ref_label ← u32s.get? (u32start + 3)
    let f ← field_ids ref_label
    let region_label := utf8Decode false (rstripNul f.payload)
    let dt ← u16s.get? u16start
    let idx ← u16s.get? (u16start + 1)
    let nw ← u32s.get? (u32start + 1)
    let bo ← u32s.get? (u32start + 2)
    let ws ← u32s.get? (u32start + 5)
    let rft ← u16s.get? (u16start + 13)
    let rest ← type100Entries u16s u32s field_ids (i + 1) cnt
    some ({ data_type := dt, label := region_label, index := idx,
            num_words := nw, byte_offset := bo, word_size := ws,
            ref_field_type := rft } :: rest)

/-- Model of `parsing.process_payload_type100`: decode a Type-100 data-key payload
into its region schema list, running `fix_wordsize_zero` exactly when some
declared `word_size` is 0. -/
def process_payload_type100 (field_payload : List ℕ)
    (data_key_total_bytes : ℕ) (field_ids : FieldIndex) :
    Option (List RegionSchemaEntry) :=
  if field_payload.length % 36 ≠ 0 then none
  else
    match unpack_uint16 field_payload, unpack_uint32 field_payload with
    | some u16s, some u32s => do
      let regions ← type100Entries u16s u32s field_ids 0
        (field_payload.length / 36)
      let byte_offsets := regions.map (fun r => r.byte_offset)
      if regions.any (fun r => r.word_size = 0) then
        fix_wordsize_zero regions byte_offsets data_key_total_bytes
      else
        some regions
    | _, _ => none

/-! ### The recursive data-container decoder (`parsing.py`)

Exceptions (KeyError, struct.error, assert failures, TypeError) are
modelled by `none`.  The mutual recursion through Reference regions is
bounded by an explicit `fuel` argument modelling the Python call stack:
every call strictly decreases `fuel`, and `fuel` exhaustion (`none`)
corresponds to the unbounded recursion the Python code would perform on a
cyclic reference graph. -/

mutual

/-- Model of `parsing.process_data_region`: decode one region of one data-container
chunk.  Returns the `region_data` dict and the updated `visited_ids`. -/
def process_data_region : ℕ → RegionSchemaEntry → List ℕ → FieldIndex →
    DataTypes → List ℕ → Option (RegionData × List ℕ)
  | 0, _, _, _, _, _ => none
  | fuel + 1, region, payload, field_ids, data_types, visited_ids =>
    let data_raw := pySlice payload region.byte_offset
        (region.byte_offset + region.word_size * region.num_words)
    if region.data_type = 1 ∨ region.data_type = 2 then
      if 1 < data_raw.length ∧ is_ascii data_raw then
        some (⟨data_raw, .vStr (utf8Decode false (rstripNul data_raw)),
              .iNone⟩, visited_ids)
      else
        some (⟨data_raw, collapseInt (unpack_uint8 data_raw), .iNone⟩,
              visited_ids)
    else if region.data_type = 3 ∨ region.data_type = 4 then
      match unpack_uint16 data_raw with
      | none => none
      | some l => some (⟨data_raw, collapseInt l, .iNone⟩, visited_ids)
    else if region.data_type = 5 ∨ region.data_type = 6 ∨
        region.data_type = 9 ∨ region.data_type = 21 then
      match unpack_uint32 data_raw with
      | none => none
      | some l =>
        if (strCp "time").isSuffixOf region.label then
          match collapseInt l with
          | .vInt n =>
            some (⟨data_raw, .vInt n,
                  .iStr (gmtimeAsctime n ++ strCp " UTC")⟩, visited_ids)
          | _ => none
        else
          some (⟨data_raw, collapseInt l, .iNone⟩, visited_ids)
    else if region.data_type = 7 then
      match unpack_uint64 data_raw with
      | none => none
      | some l => some (⟨data_raw, collapseInt l, .iNone⟩, visited_ids)
    else if region.data_type = 10 then
      match unpack_double data_raw with
      | none => none
      | some l => some (⟨data_raw, collapseDbl l, .iNone⟩, visited_ids)
    else if region.data_type = 15 ∨ region.data_type = 17 then
      match unpack_uint32 data_raw with
      | none => none
      | some l =>
        match collapseInt l with
        | .vInt this_ref =>
          if this_ref ≠ 0 then
            match field_ids this_ref with
            | none => none
            | some field_info_ref =>
              if field_info_ref.ftype = 16 then
                some (⟨data_raw, .vInt this_ref,
                      .iStr (utf8Decode false field_info_ref.payload.dropLast)⟩,
                      visited_ids)
              else
                match process_payload_data_container fuel field_info_ref
                    data_types field_ids visited_ids with
                | none => none
                | some (regions_list, v1) =>
                  match data_types field_info_ref.ftype with
                  | none => none
                  | some schema =>
                    some (⟨data_raw, .vInt this_ref,
                          .iNested regions_list schema.label
                            field_info_ref.fid field_info_ref.ftype⟩,
                          v1 ++ [field_info_ref.fid])
          else
            some (⟨data_raw, .vInt this_ref, .iNone⟩, visited_ids)
        | _ => none
    else
      some (⟨data_raw, .vNone, .iNone⟩, visited_ids)

/-- Inner loop of `parsing.process_payload_data_container`: one pass over
the data-key regions for chunk number `i`, appending one `regions_list`
entry per region schema entry, in document order. -/
def container_regions_pass : ℕ → List ℕ → List RegionSchemaEntry →
    DataTypes → FieldIndex → ℕ → List ℕ → Option (List RegionOut × List ℕ)
  | 0, _, _, _, _, _, _ => none
  | _ + 1, _, [], _, _, _, visited_ids => some ([], visited_ids)
  | fuel + 1, chunk, region :: rest, data_types, field_ids, i, visited_ids =>
    match process_data_region fuel region chunk field_ids data_types
        visited_ids with
    | none => none
    | some (region_data, v1) =>
      match container_regions_pass fuel chunk rest data_types field_ids i
          v1 with
      | none => none
      | some (tail, v2) =>
        some ({ label := region.label
                data := region_data
                dtype := REGION_DATA_TYPES region.data_type
                dtype_num := region.data_type
                word_size := region.word_size
                num_words := region.num_words
                region_idx := region.index
                key_iter := i } :: tail, v2)

/-- Outer loop of `parsing.process_payload_data_container`: iterate the
data-key pass over chunk numbers `i, i+1, ...` (`cnt` chunks remain). -/
def container_key_iters : ℕ → List ℕ → ℕ → List RegionSchemaEntry →
    DataTypes → FieldIndex → ℕ → ℕ → List ℕ →
    Option (List RegionOut × List ℕ)
  | 0, _, _, _, _, _, _, _, _ => none
  | _ + 1, _, _, _, _, _, _, 0, visited_ids => some ([], visited_ids)
  | fuel + 1, payload, data_key_len, data_key, data_types, field_ids, i,
      cnt + 1, visited_ids =>
    match container_regions_pass fuel
        (pySlice payload (i * data_key_len) ((i + 1) * data_key_len))
        data_key data_types field_ids i visited_ids with
    | none => none
    | some (regs, v1) =>
      match container_key_iters fuel payload data_key_len data_key
          data_types field_ids (i + 1) cnt v1 with
      | none => none
      | some (tail, v2) => some (regs ++ tail, v2)

/-- Model of `parsing.process_payload_data_container`: decode a data-container
field against its discovered item schema and data key. -/
def process_payload_data_container : ℕ → FieldInfo → DataTypes →
    FieldIndex → List ℕ → Option (List RegionOut × List ℕ)
  | 0, _, _, _, _ => none
  | fuel + 1, field_info, data_types, field_ids, visited_ids =>
    match data_types field_info.ftype with
    | none => none
    | some this_data_field =>
      match field_ids this_data_field.data_key_ref with
      | none => none
      | some dk_field =>
        match dk_field.regions with
        | none => none
        | some data_key =>
          let payload_len := field_info.payload.length
          let data_key_len := this_data_field.total_bytes
          if data_key_len = 0 then none
          else if payload_len % data_key_len ≠ 0 then none
          else
            container_key_iters fuel field_info.payload data_key_len
              data_key data_types field_ids 0 (payload_len / data_key_len)
              visited_ids

end

/-! ### Byte field framer and file-header parser (`reader.py`) -/

/-- The result dict of `Reader._read_field_lite`. -/
structure FieldLite where
  ftype : ℕ
  fid : ℕ
  start : ℕ
  flen : ℕ
  payload : List ℕ
deriving Repr, DecidableEq

/-- Model of `Reader._process_field_header`: unpack `type:u16`, `length:u16`,
`id:u32` from the 8 header bytes at `byte_idx`; the historical encoding
`length == 1` means `length = 20`.  Fewer than 8 bytes available makes the
indexing raise (struct.error or IndexError), i.e. `none`. -/
def process_field_header (buf : List ℕ) (byte_idx : ℕ) : Option (ℕ × ℕ × ℕ) :=
  match unpack_uint16 (pySlice buf byte_idx (byte_idx + 8)),
      unpack_uint32 (pySlice buf byte_idx (byte_idx + 8)) with
  | some h16, some h32 =>
    match h16.get? 0, h16.get? 1, h32.get? 1 with
    | some field_type, some fl, some field_id =>
      some (field_type, if fl = 1 then 20 else fl, field_id)
    | _, _, _ => none
  | _, _ => none

/-- Model of `Reader._read_field_lite`: frame one field at `byte_idx`, returning
`(next_offset, field record)`.  Whenever the header bytes are readable the
function returns — it performs no advancement check of its own. -/
def read_field_lite (buf : List ℕ) (byte_idx : ℕ) : Option (ℕ × FieldLite) :=
  match process_field_header buf byte_idx with
  | none => none
  | some (field_type, field_len, field_id) =>
    some (byte_idx + field_len,
      { ftype := field_type, fid := field_id, start := byte_idx,
        flen := field_len,
        payload := pySlice buf (byte_idx + 8) (byte_idx + field_len) })

/-- Outcome of `Reader._parse_file_header`: `invalidFile` models
`BioRadInvalidFileError`; `pyExc` models every other exception the code
can raise (struct.error, IndexError, the generic
`Exception("Problem parsing file header")`). -/
inductive HdrErr where
  | invalidFile : HdrErr
  | pyExc : HdrErr
deriving Repr, DecidableEq

/-- The header-parsing state stored on the Reader: the endianness flag and
the two data-block dicts. -/
structure HeaderState where
  endian_little : Bool
  data_start : ℕ → Option ℕ
  data_len : ℕ → Option ℕ

/-- The `block_ptr_types` table of `Reader._parse_file_header`
(field type → data-block index). -/
def BLOCK_PTR_TYPES (t : ℕ) : Option ℕ :=
  match t with
  | 142 => some 0
  | 143 => some 1
  | 132 => some 2
  | 133 => some 3
  | 141 => some 4
  | 140 => some 5
  | 126 => some 6
  | 127 => some 7
  | 128 => some 8
  | 129 => some 9
  | 130 => some 10
  | _ => none

/-- Dict update `d[k] = v`. -/
def updateFn (f : ℕ → Option ℕ) (k v : ℕ) : ℕ → Option ℕ :=
  fun n => if n = k then some v else f n

/-- Block-pointer walking loop of `Reader._parse_file_header` (the
`while byte_idx < file_header_end` loop).  The loop body: frame a field;
if its type is a block-pointer type, record `(start, length)` from the
first two u32s of its payload; a type-0 sentinel ends the loop
immediately (with no completeness check of the block table); a field that
did not advance `byte_idx` raises.  `fuel` only bounds the recursion; it
cannot expire before the loop exits because `byte_idx` strictly increases
below `file_header_end`. -/
def header_loop : ℕ → List ℕ → ℕ → ℕ → HeaderState → Except HdrErr HeaderState
  | 0, _, _, _, _ => .error .pyExc
  | fuel + 1, buf, file_header_end, byte_idx, st =>
    if byte_idx < file_header_end then
      match read_field_lite buf byte_idx with
      | none => .error .pyExc
      | some (next, fi) =>
        let recorded : Except HdrErr HeaderState :=
          match BLOCK_PTR_TYPES fi.ftype with
          | some block_num =>
            match unpack_uint32 fi.payload with
            | none => .error .pyExc
            | some us =>
              match us.get? 0, us.get? 1 with
              | some a, some b =>
                .ok { st with data_start := updateFn st.data_start block_num a,
                              data_len := updateFn st.data_len block_num b }
              | _, _ => .error .pyExc
          | none => .ok st
        match recorded with
        | .error e => .error e
        | .ok st1 =>
          if fi.ftype = 0 then .ok st1
          else if next = byte_idx then .error .pyExc
          else header_loop fuel buf file_header_end next st1
    else .ok st

/-- Model of `Reader._parse_file_header`: magic-number check (`0xAFAF`, else
`InvalidFile`), endianness-tag check on bytes [32,56) (`"Intel Format"`
selects little-endian; any other value selects big-endian and parsing
continues — it does NOT raise), Bio-Rad ID check on bytes [56,136) (else
`InvalidFile`), then the block-pointer loop from offset 160 up to the u32
`file_header_end` read at byte 148. -/
def parse_file_header (buf : List ℕ) : Except HdrErr HeaderState :=
  match (unpack_uint16 (pySlice buf 0 2)).bind (fun l => l.get? 0) with
  | none => .error .pyExc
  | some magic =>
    if magic ≠ 0xafaf then .error .invalidFile
    else
      let endian_little :=
        (strCp "Intel Format").isPrefixOf (unpack_string (pySlice buf 32 56))
      if ¬ (strCp "Bio-Rad Scan File").isPrefixOf
          (unpack_string (pySlice buf 56 136)) then .error .invalidFile
      else
        match (unpack_uint32 (pySlice buf 148 152)).bind (fun l => l.get? 0) with
        | none => .error .pyExc
        | some file_header_end =>
          header_loop (file_header_end + 1) buf file_header_end 160
            { endian_little := endian_little,
              data_start := fun _ => none, data_len := fun _ => none }

/-! ### Image plane extraction (`Reader.get_img_data`) and rescale
(`Reader.save_img_as_tiff_sc`) -/

/-- The attributes of a `Reader` instance that the image path touches. -/
structure ReaderState where
  in_bytes : List ℕ
  data_start : ℕ → Option ℕ
  data_len : ℕ → Option ℕ
  img_size_x : Option ℕ
  img_size_y : Option ℕ
  img_data : Option (List ℤ)

/-- The elementwise inversion `[2**16-1-x for x in self.img_data]` of
`Reader.get_img_data` (pixels as Python ints, i.e. `ℤ`). -/
def invert_pixels (l : List ℤ) : List ℤ :=
  l.map (fun x => 2 ^ 16 - 1 - x)

/-- Row-reorder loop of `Reader.get_img_data` (non-numpy path):
`for i in range(len(img_data), 0, -img_size_x): out += img_data[i-sx:i]`,
which moves the bottom source row to the top.  The slice start `i - sx`
is a Python int and may go negative, hence `pySliceZ`. -/
def img_row_loop : ℕ → List ℤ → ℕ → ℕ → List ℤ
  | 0, _, _, _ => []
  | fuel + 1, img, sx, i =>
    if 0 < i then
      pySliceZ img ((i : ℤ) - (sx : ℤ)) (i : ℤ) ++ img_row_loop fuel img sx (i - sx)
    else []

/-- Model of `Reader.get_img_data`:
* `if self.img_size_x or self.img_size_y is None: self._get_img_size()` —
  note the Python condition is `truthy(img_size_x) or (img_size_y is
  None)`.  `_get_img_size` only reads the byte buffer (through
  `get_img_metadata`, a pure scan of Data Block 7) and assigns the two
  size attributes; it is abstracted here as the pure function `getSize`
  of the buffer, `none` modelling any exception inside it.
* on a cache miss (`self.img_data is None`), unpack Data Block 10 as
  little-endian u16s and reorder the rows bottom-to-top, caching the
  result in `img_data`;
* `invert=True` builds a new inverted list and does not touch the cache.
Returns the updated state and the `(img_size_x, img_size_y, img_data)`
triple. -/
def get_img_data (getSize : List ℕ → Option (ℕ × ℕ)) (s : ReaderState)
    (invert : Bool) :
    Option (ReaderState × (Option ℕ × Option ℕ × List ℤ)) := do
  let s1 ←
    if (match s.img_size_x with
        | some n => decide (n ≠ 0)
        | none => false) || s.img_size_y.isNone then
      match getSize s.in_bytes with
      | none => none
      | some (x, y) =>
        some { s with img_size_x := some x, img_size_y := some y }
    else some s
  let s2 ←
    if s1.img_data = none then do
      let img_start ← s1.data_start 10
      let block_len ← s1.data_len 10
      let img_end := img_start + block_len
      let raw := pySlice s1.in_bytes img_start img_end
      let cnt := (img_end - img_start) / 2
      if raw.length = cnt * 2 then do
        let pixels := (leWordsN cnt 2 raw).map (fun n => (n : ℤ))
        let sx ← s1.img_size_x
        if sx = 0 then none
        else
          let reordered := img_row_loop (pixels.length + 1) pixels sx
            pixels.length
          some { s1 with img_data := some reordered }
      else none
    else some s1
  let d ← s2.img_data
  let out := if invert then invert_pixels d else d
  some (s2, (s2.img_size_x, s2.img_size_y, out))

/-- Truncation toward zero, the semantics of Python `int(float)` and of
numpy `astype` from float to integer. -/
def truncQ (q : ℚ) : ℤ := if 0 ≤ q then ⌊q⌋ else ⌈q⌉

/-- Python `min(list)` (raises on an empty list). -/
def listMin : List ℤ → Option ℤ
  | [] => none
  | x :: xs => some (xs.foldl min x)

/-- Python `max(list)` (raises on an empty list). -/
def listMax : List ℤ → Option ℤ
  | [] => none
  | x :: xs => some (xs.foldl max x)

/-- Pixel-scaling core of `Reader.save_img_as_tiff_sc`, non-numpy branch
(lines 295-301; its input `img_data` is what `get_img_data(invert=invert)`
returned, so inversion has already been applied to the pixels):
`img_min = min`, `img_max = max`; when inverting anchor at the max and
set `img_min = img_max - (img_max - img_min)*imgsc`, otherwise anchor at
the min and set `img_max = img_min + (img_max - img_min)*imgsc`;
`img_span = img_max - img_min`; each pixel maps through
`int((x - img_min)*(2**16-1)/img_span)` — Python ints are unbounded, so
the product never wraps here — and is then clamped to `[0, 2**16-1]`.
A zero span raises ZeroDivisionError.
Float convention: the quotient is a Python float (IEEE-754 double); this
model computes it as an exact rational, the same convention in which the
spec states the formula.  Subtraction and product are integer-exact in
the code too; for an integer span the double quotient is within 2⁻²¹ of
the exact one while a non-integer exact quotient is at least
`1/span ≥ 2⁻¹⁷` from any integer, so `int()` of the double equals
`truncQ` of the rational there; for non-dyadic scales the final rounding
of the double quotient is abstracted. -/
def save_img_scale_nonumpy (img_data : List ℤ) (imgsc : ℚ) (invert : Bool) :
    Option (List ℤ) :=
  match listMin img_data, listMax img_data with
  | some mn, some mx =>
    let img_min : ℚ := if invert then (mx : ℚ) - ((mx : ℚ) - (mn : ℚ)) * imgsc
      else (mn : ℚ)
    let img_max : ℚ := if invert then (mx : ℚ)
      else (mn : ℚ) + ((mx : ℚ) - (mn : ℚ)) * imgsc
    let img_span := img_max - img_min
    if img_span = 0 then none
    else
      some (img_data.map (fun (x : ℤ) =>
        min (max (truncQ (((x : ℚ) - img_min) * (2 ^ 16 - 1) / img_span)) 0)
          (2 ^ 16 - 1)))
  | _, _ => none

/-- Two's-complement wraparound of numpy `int32` arithmetic: the result
of an int32 operation, reduced into `[-2^31, 2^31)`. -/
def wrap32 (n : ℤ) : ℤ := (n + 2 ^ 31) % 2 ^ 32 - 2 ^ 31

/-- Pixel-scaling core of `Reader.save_img_as_tiff_sc`, numpy branch
(lines 281-294).  It differs from the non-numpy branch in two ways:
* `img_data = np.array(img_data, dtype='int32')`, so in the non-invert
  case — where `img_min` is still the uint16 minimum — the expression
  `(img_data - img_min)*(2**16-1)` is evaluated in int32 arithmetic and
  WRAPS modulo 2^32 whenever `(pixel - img_min) ≥ 32769` (in the invert
  case `img_min` was reassigned to a float, so the whole expression is
  computed in float64 and cannot wrap);
* `np.clip(img_data_scale, 0, 2**16-1)` clips the float array first and
  `astype('uint16')` truncates afterwards (the non-numpy branch truncates
  first and clamps afterwards; the two orders agree pointwise).
A zero span makes numpy produce non-finite floats whose uint16 cast is
not a defined integer; the model returns `none` for that degenerate case,
which every theorem below excludes by hypothesis.  The float64 quotient
is modelled as an exact rational, as in `save_img_scale_nonumpy`;
the wrapped product has magnitude below 2^31 < 2^53, so it is exact in
float64. -/
def save_img_scale_numpy (img_data : List ℤ) (imgsc : ℚ) (invert : Bool) :
    Option (List ℤ) :=
  match listMin img_data, listMax img_data with
  | some mn, some mx =>
    if invert then
      let img_min : ℚ := (mx : ℚ) - ((mx : ℚ) - (mn : ℚ)) * imgsc
      let img_span : ℚ := (mx : ℚ) - img_min
      if img_span = 0 then none
      else
        some (img_data.map (fun (x : ℤ) =>
          truncQ (min (max (((x : ℚ) - img_min) * (2 ^ 16 - 1) / img_span) 0)
            (2 ^ 16 - 1))))
    else
      let img_max : ℚ := (mn : ℚ) + ((mx : ℚ) - (mn : ℚ)) * imgsc
      let img_span : ℚ := img_max - (mn : ℚ)
      if img_span = 0 then none
      else
        some (img_data.map (fun (x : ℤ) =>
          truncQ (min (max
            (((wrap32 (wrap32 (x - mn) * (2 ^ 16 - 1)) : ℤ) : ℚ) / img_span)
            0) (2 ^ 16 - 1))))
  | _, _ => none

/-- Model of `Reader.save_img_as_tiff_sc` up to the TIFF container write:
extract (and possibly invert) the image, then rescale its dynamic range.
`has_numpy` is the module-level `HAS_NUMPY` flag selecting the branch
(the numpy load path of `get_img_data` computes the same reordered pixel
list through an index array, so one extraction model serves both). -/
def save_img_as_tiff_sc (has_numpy : Bool)
    (getSize : List ℕ → Option (ℕ × ℕ))
    (s : ReaderState) (imgsc : ℚ) (invert : Bool) :
    Option (ReaderState × List ℤ) := do
  let (s1, r) ← get_img_data getSize s invert
  let scaled ←
    if has_numpy then save_img_scale_numpy r.2.2 imgsc invert
    else save_img_scale_nonumpy r.2.2 imgsc invert
  some (s1, scaled)

/-! ## Theorems -/

theorem leWordsN_length (num w : ℕ) (bs : List ℕ) :
    (leWordsN num w bs).length = num := by
  induction num generalizing bs with
  | zero => rfl
  | succ n ih => simp [leWordsN, ih]

theorem structUnpack_spec (w : ℕ) (hw : w ≠ 0) (bs : List ℕ) :
    (bs.length % w = 0 →
      structUnpack w bs = some (leWordsN (bs.length / w) w bs)) ∧
    (bs.length % w ≠ 0 → structUnpack w bs = none) := by
  constructor
  · intro h
    have hd : bs.length = bs.length / w * w :=
      (Nat.div_mul_cancel (Nat.dvd_of_mod_eq_zero h)).symm
    simp [structUnpack, ← hd]
  · intro h
    have hdm := Nat.div_add_mod bs.length w
    have hd : ¬ (bs.length = bs.length / w * w) := by
      rw [Nat.mul_comm (bs.length / w) w]
      omega
    simp [structUnpack, hd]

/-- C10 (counterexample): `unpack_uint16` on a 3-byte input does not
"silently discard the trailing byte and decode 1 word" — the underlying
`struct.unpack` call demands an exact-length buffer and raises
struct.error (modelled by `none`). -/
theorem c10_unpack_raises_on_remainder :
    unpack_uint16 [0, 0, 0] = none := by decide

/-- C10 (amended): each unpack helper computes `len // width` words but
only succeeds when the byte length is an exact multiple of the word
width; any other length makes `struct.unpack` raise struct.error
(`none`). -/
theorem c10_amended_unpack_exact_multiples (bs : List ℕ) :
    (bs.length % 2 = 0 →
      ∃ l, unpack_uint16 bs = some l ∧ l.length = bs.length / 2) ∧
    (bs.length % 2 ≠ 0 → unpack_uint16 bs = none) ∧
    (bs.length % 4 = 0 →
      ∃ l, unpack_uint32 bs = some l ∧ l.length = bs.length / 4) ∧
    (bs.length % 4 ≠ 0 → unpack_uint32 bs = none) ∧
    (bs.length % 8 = 0 →
      ∃ l, unpack_uint64 bs = some l ∧ l.length = bs.length / 8) ∧
    (bs.length % 8 ≠ 0 → unpack_uint64 bs = none) ∧
    (bs.length % 8 = 0 →
      ∃ l, unpack_double bs = some l ∧ l.length = bs.length / 8) ∧
    (bs.length % 8 ≠ 0 → unpack_double bs = none) := by
  refine ⟨fun h => ?_, fun h => ?_, fun h => ?_, fun h => ?_,
    fun h => ?_, fun h => ?_, fun h => ?_, fun h => ?_⟩ <;>
    first
      | exact ⟨_, (structUnpack_spec _ (by omega) bs).1 h,
          leWordsN_length _ _ _⟩
      | exact (structUnpack_spec _ (by omega) bs).2 h

/-- C10 (witness for the amended theorem): a 6-byte buffer decodes to 3
u16 words, and the same buffer makes the u32 helper raise. -/
theorem c10_amended_witness :
    (([1, 0, 2, 0, 3, 0] : List ℕ).length % 2 = 0 ∧
      ∃ l, unpack_uint16 [1, 0, 2, 0, 3, 0] = some l ∧
        l.length = ([1, 0, 2, 0, 3, 0] : List ℕ).length / 2) ∧
    (([1, 0, 2, 0, 3, 0] : List ℕ).length % 4 ≠ 0 ∧
      unpack_uint32 [1, 0, 2, 0, 3, 0] = none) :=
  ⟨⟨by decide,
    (c10_amended_unpack_exact_multiples [1, 0, 2, 0, 3, 0]).1 (by decide)⟩,
   ⟨by decide,
    (c10_amended_unpack_exact_multiples [1, 0, 2, 0, 3, 0]).2.2.2.1
      (by decide)⟩⟩

/-- C8 (confirmed): inverting a u16 pixel array twice returns the
original array elementwise, because `65535 - (65535 - x) = x` on the u16
range. -/
theorem c8_invert_involution (pixels : List ℤ)
    (h : ∀ x ∈ pixels, 0 ≤ x ∧ x ≤ 65535) :
    invert_pixels (invert_pixels pixels) = pixels := by
  unfold invert_pixels
  rw [List.map_map]
  conv_rhs => rw [← List.map_id pixels]
  refine List.map_congr_left ?_
  intro x _
  simp only [Function.comp_apply, id_eq]
  ring

/-- C8 (witness): the involution at a concrete u16 pixel array. -/
theorem c8_invert_involution_witness :
    (∀ x ∈ ([0, 7, 65535] : List ℤ), 0 ≤ x ∧ x ≤ 65535) ∧
      invert_pixels (invert_pixels [0, 7, 65535]) = [0, 7, 65535] :=
  ⟨by decide, c8_invert_involution [0, 7, 65535] (by decide)⟩

/-- C7 (confirmed): the zero-word-size repair leaves a region set with
no zero `word_size` entries unchanged. -/
theorem c7_fix_wordsize_zero_noop (regions : List RegionSchemaEntry)
    (byte_offsets : List ℕ) (data_key_total_bytes : ℕ)
    (h : ∀ r ∈ regions, 0 < r.word_size) :
    fix_wordsize_zero regions byte_offsets data_key_total_bytes =
      some regions := by
  unfold fix_wordsize_zero
  induction regions with
  | nil => rfl
  | cons r rs ih =>
    have hr : ¬ (r.word_size = 0) := by
      have := h r (List.mem_cons_self r rs)
      omega
    have ht := ih (fun x hx => h x (List.mem_cons_of_mem r hx))
    simp only at ht
    simp only [fixRegionsLoop, fixOneRegion, hr, if_false, ht]

/-! Synthetic files for the header-parser claims. -/

/-- A file with a valid magic number and valid Bio-Rad ID text whose
endianness tag at [32,56) reads `"Motorola Format"` (not
`"Intel Format"`), and whose header holds only the type-0 sentinel field
at offset 160 with `file_header_end = 168`. -/
def motorolaFile : List ℕ :=
  [0xaf, 0xaf] ++ List.replicate 30 0 ++
  strCp "Motorola Format" ++ List.replicate 9 0 ++
  strCp "Bio-Rad Scan File" ++ List.replicate 63 0 ++
  List.replicate 12 0 ++ [168, 0, 0, 0] ++ List.replicate 8 0 ++
  [0, 0, 8, 0, 0, 0, 0, 0]

/-- Like `motorolaFile` but with the `"Intel Format"` tag: a valid open
whose header contains no block-pointer field at all before the type-0
sentinel. -/
def intelSentinelFile : List ℕ :=
  [0xaf, 0xaf] ++ List.replicate 30 0 ++
  strCp "Intel Format" ++ List.replicate 12 0 ++
  strCp "Bio-Rad Scan File" ++ List.replicate 63 0 ++
  List.replicate 12 0 ++ [168, 0, 0, 0] ++ List.replicate 8 0 ++
  [0, 0, 8, 0, 0, 0, 0, 0]

/-- A two-byte file whose magic number is wrong. -/
def badMagicFile : List ℕ := [0, 0]

/-- The header state at entry of the block-pointer loop. -/
def initHeaderState (el : Bool) : HeaderState :=
  { endian_little := el, data_start := fun _ => none,
    data_len := fun _ => none }

theorem header_loop_ne_invalidFile (fuel : ℕ) :
    ∀ buf fhe idx st, header_loop fuel buf fhe idx st ≠
      .error .invalidFile := by
  induction fuel with
  | zero => intro buf fhe idx st h; simp [header_loop] at h
  | succ n ih =>
    intro buf fhe idx st
    simp only [header_loop]
    split
    · split
      · simp
      · split
        · rename_i e heq2
          repeat' split at heq2
          all_goals cases heq2 <;> simp
        · split
          · simp
          · split
            · simp
            · exact ih _ _ _ _
    · simp

/-- C2 (amended): `_parse_file_header` raises `InvalidFile` only for a
magic-number mismatch or a Bio-Rad ID text mismatch; a non-"Intel Format"
endianness tag does not raise (the reader records big-endian mode and
continues). -/
theorem c2_amended_invalidFile_only_magic_or_id (buf : List ℕ)
    (h : parse_file_header buf = .error .invalidFile) :
    (∀ m, (unpack_uint16 (pySlice buf 0 2)).bind (fun l => l.get? 0) =
        some m → m ≠ 0xafaf) ∨
    (strCp "Bio-Rad Scan File").isPrefixOf
        (unpack_string (pySlice buf 56 136)) = false := by
  unfold parse_file_header at h
  split at h
  · exact absurd h (by simp)
  · rename_i m hm
    split at h
    · rename_i hmagic
      refine Or.inl (fun m' hm' => ?_)
      rw [hm] at hm'
      injection hm' with e
      exact e ▸ hmagic
    · split at h
      · rename_i hb
        refine Or.inr ?_
        revert hb
        cases (strCp "Bio-Rad Scan File").isPrefixOf
          (unpack_string (pySlice buf 56 136)) <;> simp
      · split at h
        · exact absurd h (by simp)
        · exact absurd h (header_loop_ne_invalidFile _ _ _ _ _)

/-- C2 (counterexample): opening `motorolaFile` — whose bytes [32,56) do
not start with `"Intel Format"` — succeeds and returns a Reader state in
big-endian mode, instead of raising `InvalidFile`. -/
theorem c2_counterexample_motorola_opens :
    ∃ st, parse_file_header motorolaFile = .ok st ∧
      st.endian_little = false :=
  ⟨_, rfl, rfl⟩

/-- C2 (witness for the amended theorem): on the bad-magic file the only
`InvalidFile` source is indeed the magic number. -/
theorem c2_amended_witness :
    parse_file_header badMagicFile = .error .invalidFile ∧
    ((∀ m, (unpack_uint16 (pySlice badMagicFile 0 2)).bind
        (fun l => l.get? 0) = some m → m ≠ 0xafaf) ∨
      (strCp "Bio-Rad Scan File").isPrefixOf
        (unpack_string (pySlice badMagicFile 56 136)) = false) :=
  ⟨rfl, c2_amended_invalidFile_only_magic_or_id badMagicFile rfl⟩

/-- C6 (amended): the block-pointer loop returns successfully the moment
it reads a type-0 sentinel field, keeping the data-block table exactly as
accumulated so far — it performs no completeness check, so reaching the
sentinel before all 11 block pointers leaves the table partially filled
without any error. -/
theorem c6_amended_sentinel_returns_ok (fuel : ℕ) (buf : List ℕ)
    (fhe idx : ℕ) (st : HeaderState) (next : ℕ) (fi : FieldLite)
    (h1 : idx < fhe) (h2 : read_field_lite buf idx = some (next, fi))
    (h3 : fi.ftype = 0) :
    header_loop (fuel + 1) buf fhe idx st = .ok st := by
  simp only [header_loop, h1, if_true, h2, h3, BLOCK_PTR_TYPES, if_pos]

/-- C6 (counterexample): opening `intelSentinelFile` — whose header hits
the type-0 sentinel before any of the 11 block-pointer fields — succeeds
with a completely empty DataBlockTable instead of failing fatally. -/
theorem c6_counterexample_open_succeeds_with_partial_table :
    ∃ st, parse_file_header intelSentinelFile = .ok st ∧
      st.data_start 0 = none ∧ st.data_start 10 = none ∧
      st.data_len 10 = none :=
  ⟨_, rfl, rfl, rfl, rfl⟩

/-- C6 (witness for the amended theorem): the sentinel field of
`intelSentinelFile` at offset 160 ends header parsing with the table
as-is. -/
theorem c6_amended_witness :
    (160 < 168) ∧
    read_field_lite intelSentinelFile 160 =
      some (168, { ftype := 0, fid := 0, start := 160, flen := 8,
                   payload := [] }) ∧
    header_loop 9 intelSentinelFile 168 160 (initHeaderState true) =
      .ok (initHeaderState true) :=
  ⟨by decide, by decide,
   c6_amended_sentinel_returns_ok 8 intelSentinelFile 168 160
     (initHeaderState true) 168
     { ftype := 0, fid := 0, start := 160, flen := 8, payload := [] }
     (by decide) (by decide) rfl⟩

theorem read_field_lite_next_eq (buf : List ℕ) (idx next : ℕ)
    (fi : FieldLite) (h : read_field_lite buf idx = some (next, fi)) :
    next = idx + fi.flen := by
  unfold read_field_lite at h
  cases hh : process_field_header buf idx with
  | none => rw [hh] at h; cases h
  | some t =>
    obtain ⟨ft, fl, fid⟩ := t
    rw [hh] at h
    injection h with h1
    injection h1 with hnext hfi
    rw [← hfi, hnext]

/-- C5 (amended): `_read_field_lite` itself never raises on a
non-advancing field — whenever it returns, `next_offset = offset +
field_len ≥ offset` (so `next_offset < offset` is impossible, and
`next_offset = offset` exactly when `field_len = 0`).  The non-advance
check lives in the caller: the file-header loop raises a fatal error
(a generic `Exception`, not a `BioRadParsingError`) when a field of
nonzero type fails to advance the offset. -/
theorem c5_amended_nonadvancing_field :
    (∀ buf idx next fi, read_field_lite buf idx = some (next, fi) →
      next = idx + fi.flen) ∧
    (∀ fuel buf fhe idx st fi, idx < fhe →
      read_field_lite buf idx = some (idx, fi) → fi.ftype ≠ 0 →
      header_loop (fuel + 1) buf fhe idx st = .error .pyExc) := by
  constructor
  · exact read_field_lite_next_eq
  · intro fuel buf fhe idx st fi h1 h2 h3
    have hlen : fi.flen = 0 := by
      have := read_field_lite_next_eq buf idx idx fi h2
      omega
    have hpay : fi.payload = [] := by
      unfold read_field_lite at h2
      cases hh : process_field_header buf idx with
      | none => rw [hh] at h2; cases h2
      | some t =>
        obtain ⟨ft, fl, fid⟩ := t
        rw [hh] at h2
        injection h2 with h1'
        injection h1' with hnext hfi
        have hfl : fl = 0 := by
          have : idx + fl = idx := hnext.symm ▸ rfl
          omega
        rw [← hfi]
        simp [pySlice, hfl, Nat.sub_eq_zero_of_le]
    simp only [header_loop, h1, if_true, h2]
    cases hb : BLOCK_PTR_TYPES fi.ftype with
    | none => simp [hb, h3]
    | some bn => simp [hb, hpay, unpack_uint32, structUnpack, leWordsN]

/-- C5 (counterexample): at a zero-length field (`field_len = 0`, the
computed `next_offset` equals the given offset), `_read_field_lite`
returns a field record normally instead of raising. -/
theorem c5_counterexample_read_field_returns :
    read_field_lite [5, 0, 0, 0, 9, 0, 0, 0] 0 =
      some (0, { ftype := 5, fid := 9, start := 0, flen := 0,
                 payload := [] }) := by decide

/-- C5 (witness for the amended theorem): the header loop fails fatally
on a concrete non-advancing type-5 field. -/
theorem c5_amended_witness :
    ((0 : ℕ) < 16) ∧
    read_field_lite [5, 0, 0, 0, 9, 0, 0, 0] 0 =
      some (0, { ftype := 5, fid := 9, start := 0, flen := 0,
                 payload := [] }) ∧
    header_loop 3 [5, 0, 0, 0, 9, 0, 0, 0] 16 0 (initHeaderState true) =
      .error .pyExc :=
  ⟨by decide, by decide,
   c5_amended_nonadvancing_field.2 2 [5, 0, 0, 0, 9, 0, 0, 0] 16 0
     (initHeaderState true)
     { ftype := 5, fid := 9, start := 0, flen := 0, payload := [] }
     (by decide) (by decide) (by decide)⟩

/-- C7 (witness): the repair applied to a concrete all-positive region
set. -/
theorem c7_fix_wordsize_zero_noop_witness :
    (∀ r ∈ [({ data_type := 5, label := [97], index := 0, num_words := 1,
               byte_offset := 0, word_size := 4, ref_field_type := 0 } :
               RegionSchemaEntry)], 0 < r.word_size) ∧
    fix_wordsize_zero
      [{ data_type := 5, label := [97], index := 0, num_words := 1,
         byte_offset := 0, word_size := 4, ref_field_type := 0 }] [0] 4 =
      some [{ data_type := 5, label := [97], index := 0, num_words := 1,
              byte_offset := 0, word_size := 4, ref_field_type := 0 }] :=
  ⟨by decide, c7_fix_wordsize_zero_noop _ [0] 4 (by decide)⟩

/-- The mapping the specification claims for `save_tiff_autoscale`
(modelled from the words of the spec, for comparison with the code):
`out = round of ((pixel - lo) * 65535 / span)` at the shifted anchor lo. -/
def roundHalfUp (q : ℚ) : ℤ := ⌊q + 1 / 2⌋

/-- Truncation after clipping (the numpy order: `np.clip` on the float
array, then `astype`) agrees pointwise with clipping after truncation
(the non-numpy order: `int()`, then `min`/`max`). -/
theorem truncQ_clip_clamp (q : ℚ) :
    truncQ (min (max q 0) (2 ^ 16 - 1)) =
      min (max (truncQ q) 0) (2 ^ 16 - 1) := by
  rcases le_or_lt q 0 with hq | hq
  · rw [max_eq_right hq, min_eq_left (by norm_num : (0 : ℚ) ≤ 2 ^ 16 - 1)]
    have h1 : truncQ q ≤ 0 := by
      unfold truncQ
      split
      · exact Int.floor_nonpos hq
      · exact Int.ceil_le.mpr (by exact_mod_cast hq)
    have h0 : truncQ 0 = 0 := by norm_num [truncQ]
    rw [h0, max_eq_right h1,
      min_eq_left (by norm_num : (0 : ℤ) ≤ 2 ^ 16 - 1)]
  · rcases le_or_lt q (2 ^ 16 - 1) with hq2 | hq2
    · rw [max_eq_left hq.le, min_eq_left hq2]
      have hfl : truncQ q = ⌊q⌋ := by unfold truncQ; rw [if_pos hq.le]
      have h1 : 0 ≤ ⌊q⌋ := Int.floor_nonneg.mpr hq.le
      have h2 : ⌊q⌋ ≤ 2 ^ 16 - 1 := by
        have hc : ⌊(2 ^ 16 - 1 : ℚ)⌋ = 2 ^ 16 - 1 := by norm_num
        calc ⌊q⌋ ≤ ⌊(2 ^ 16 - 1 : ℚ)⌋ := Int.floor_le_floor hq2
        _ = 2 ^ 16 - 1 := hc
      rw [hfl, max_eq_left h1, min_eq_left h2]
    · rw [max_eq_left hq.le, min_eq_right hq2.le]
      have hL : truncQ (2 ^ 16 - 1 : ℚ) = 2 ^ 16 - 1 := by norm_num [truncQ]
      have hfl : truncQ q = ⌊q⌋ := by unfold truncQ; rw [if_pos hq.le]
      have h2 : (2 ^ 16 - 1 : ℤ) ≤ ⌊q⌋ := by
        rw [Int.le_floor]
        push_cast
        linarith
      rw [hfl, hL, max_eq_left (by omega), min_eq_right (by omega)]

/-- C4 (counterexample): with pixels `[0, 4, 7]`, scale 1, no inversion,
both branches map pixel 4 to `int(4 * 65535 / 7) = 37448` (truncation),
while the claimed `round(4 * 65535 / 7)` is `37449`.  Moreover the numpy
branch refutes the claimed formula even with truncation: on the
full-range array `[0, 65535]` the int32 product `65535 * 65535` wraps to
`-131071`, so the top pixel maps to `0` where the claim (whose clamped
round gives `65535`) requires `65535`. -/
theorem c4_counterexample_truncates_not_rounds :
    save_img_scale_nonumpy [0, 4, 7] 1 false = some [0, 37448, 65535] ∧
    save_img_scale_numpy [0, 4, 7] 1 false = some [0, 37448, 65535] ∧
    roundHalfUp (((4 : ℚ) - 0) * (2 ^ 16 - 1) / 7) = 37449 ∧
    ((37448 : ℤ) ≠ 37449) ∧
    save_img_scale_numpy [0, 65535] 1 false = some [0, 0] ∧
    roundHalfUp ((((65535 : ℤ) : ℚ) - 0) * (2 ^ 16 - 1) / 65535) = 65535 ∧
    ((0 : ℤ) ≠ 65535) := by
  refine ⟨?_, ?_, ?_, by decide, ?_, ?_, by decide⟩
  · unfold save_img_scale_nonumpy listMin listMax
    simp only [List.foldl]
    norm_num [truncQ, Int.floor_eq_iff]
  · unfold save_img_scale_numpy listMin listMax
    simp only [List.foldl]
    norm_num [truncQ, wrap32, Int.floor_eq_iff]
  · unfold roundHalfUp
    norm_num [Int.floor_eq_iff]
  · unfold save_img_scale_numpy listMin listMax
    simp only [List.foldl]
    norm_num [truncQ, wrap32, Int.floor_eq_iff]
  · unfold roundHalfUp
    norm_num [Int.floor_eq_iff]

/-- C4 (amended): for a pixel array with distinct minimum `mn` and
maximum `mx` and nonzero scale, `save_img_as_tiff_sc` computes
`lo2 = mx - (mx - mn)*s` when inverting and `hi2 = mn + (mx - mn)*s`
otherwise, and truncates toward zero (the semantics of Python `int()` /
numpy `astype`) instead of rounding: the non-numpy branch maps every
pixel `x` to `trunc((x - lo2) * 65535 / (hi2 - lo2))` clamped to
`[0, 65535]`; the numpy branch computes the same quotient except that,
when not inverting, the product `(x - lo2) * 65535` is evaluated in
int32 arithmetic and wraps, and it clips before casting.  The two
branches agree whenever no pixel wraps. -/
theorem c4_amended_scale_formula (img_data : List ℤ) (imgsc : ℚ)
    (invert : Bool) (mn mx : ℤ) (hmn : listMin img_data = some mn)
    (hmx : listMax img_data = some mx) (hne : mn ≠ mx) (hs : imgsc ≠ 0) :
    save_img_scale_nonumpy img_data imgsc invert =
      some (img_data.map (fun (x : ℤ) =>
        let lo : ℚ := if invert then (mx : ℚ) - ((mx : ℚ) - (mn : ℚ)) * imgsc
          else (mn : ℚ)
        let hi : ℚ := if invert then (mx : ℚ)
          else (mn : ℚ) + ((mx : ℚ) - (mn : ℚ)) * imgsc
        min (max (truncQ (((x : ℚ) - lo) * (2 ^ 16 - 1) / (hi - lo))) 0)
          (2 ^ 16 - 1))) ∧
    save_img_scale_numpy img_data imgsc invert =
      some (img_data.map (fun (x : ℤ) =>
        let lo : ℚ := if invert then (mx : ℚ) - ((mx : ℚ) - (mn : ℚ)) * imgsc
          else (mn : ℚ)
        let hi : ℚ := if invert then (mx : ℚ)
          else (mn : ℚ) + ((mx : ℚ) - (mn : ℚ)) * imgsc
        if invert then
          truncQ (min (max (((x : ℚ) - lo) * (2 ^ 16 - 1) / (hi - lo)) 0)
            (2 ^ 16 - 1))
        else
          truncQ (min (max
            (((wrap32 (wrap32 (x - mn) * (2 ^ 16 - 1)) : ℤ) : ℚ) / (hi - lo))
            0) (2 ^ 16 - 1)))) ∧
    ((∀ x ∈ img_data,
        wrap32 (wrap32 (x - mn) * (2 ^ 16 - 1)) = (x - mn) * (2 ^ 16 - 1)) →
      save_img_scale_numpy img_data imgsc invert =
        save_img_scale_nonumpy img_data imgsc invert) := by
  have hcast : ((mx : ℚ) - (mn : ℚ)) ≠ 0 :=
    sub_ne_zero.mpr (by exact_mod_cast hne.symm)
  have hspan0 : ((mx : ℚ) - (mn : ℚ)) * imgsc ≠ 0 := mul_ne_zero hcast hs
  have hA : save_img_scale_nonumpy img_data imgsc invert =
      some (img_data.map (fun (x : ℤ) =>
        let lo : ℚ := if invert then (mx : ℚ) - ((mx : ℚ) - (mn : ℚ)) * imgsc
          else (mn : ℚ)
        let hi : ℚ := if invert then (mx : ℚ)
          else (mn : ℚ) + ((mx : ℚ) - (mn : ℚ)) * imgsc
        min (max (truncQ (((x : ℚ) - lo) * (2 ^ 16 - 1) / (hi - lo))) 0)
          (2 ^ 16 - 1))) := by
    unfold save_img_scale_nonumpy
    rw [hmn, hmx]
    cases invert with
    | false =>
      have h1 : (mn : ℚ) + ((mx : ℚ) - (mn : ℚ)) * imgsc - (mn : ℚ) ≠ 0 := by
        intro hcon
        exact hspan0 (by linarith)
      simp only [Bool.false_eq_true, if_false]
      rw [if_neg h1]
    | true =>
      have h1 : (mx : ℚ) - ((mx : ℚ) - ((mx : ℚ) - (mn : ℚ)) * imgsc) ≠ 0 := by
        intro hcon
        exact hspan0 (by linarith)
      simp only [if_true]
      rw [if_neg h1]
  have hB : save_img_scale_numpy img_data imgsc invert =
      some (img_data.map (fun (x : ℤ) =>
        let lo : ℚ := if invert then (mx : ℚ) - ((mx : ℚ) - (mn : ℚ)) * imgsc
          else (mn : ℚ)
        let hi : ℚ := if invert then (mx : ℚ)
          else (mn : ℚ) + ((mx : ℚ) - (mn : ℚ)) * imgsc
        if invert then
          truncQ (min (max (((x : ℚ) - lo) * (2 ^ 16 - 1) / (hi - lo)) 0)
            (2 ^ 16 - 1))
        else
          truncQ (min (max
            (((wrap32 (wrap32 (x - mn) * (2 ^ 16 - 1)) : ℤ) : ℚ) / (hi - lo))
            0) (2 ^ 16 - 1)))) := by
    unfold save_img_scale_numpy
    rw [hmn, hmx]
    cases invert with
    | false =>
      have h1 : (mn : ℚ) + ((mx : ℚ) - (mn : ℚ)) * imgsc - (mn : ℚ) ≠ 0 := by
        intro hcon
        exact hspan0 (by linarith)
      simp only [Bool.false_eq_true, if_false]
      rw [if_neg h1]
    | true =>
      have h1 : (mx : ℚ) - ((mx : ℚ) - ((mx : ℚ) - (mn : ℚ)) * imgsc) ≠ 0 := by
        intro hcon
        exact hspan0 (by linarith)
      simp only [if_true]
      rw [if_neg h1]
  refine ⟨hA, hB, fun hnw => ?_⟩
  rw [hA, hB]
  congr 1
  apply List.map_congr_left
  intro x hx
  cases invert with
  | false =>
    simp only [Bool.false_eq_true, if_false]
    rw [hnw x hx]
    have hc : (((x - mn) * (2 ^ 16 - 1) : ℤ) : ℚ) =
        ((x : ℚ) - (mn : ℚ)) * (2 ^ 16 - 1) := by push_cast; ring
    rw [hc, truncQ_clip_clamp]
  | true =>
    simp only [if_true]
    rw [truncQ_clip_clamp]

/-- C4 (witness for the amended theorem): both branch formulas and the
no-wrap agreement at the concrete array `[0, 4, 7]`, scale 1, no
inversion. -/
theorem c4_amended_witness :
    listMin [0, 4, 7] = some 0 ∧ listMax [0, 4, 7] = some 7 ∧
    ((0 : ℤ) ≠ 7) ∧ ((1 : ℚ) ≠ 0) ∧
    (save_img_scale_nonumpy [0, 4, 7] 1 false =
      some (([0, 4, 7] : List ℤ).map (fun (x : ℤ) =>
        let lo : ℚ := if false then ((7 : ℤ) : ℚ) -
            (((7 : ℤ) : ℚ) - ((0 : ℤ) : ℚ)) * 1 else ((0 : ℤ) : ℚ)
        let hi : ℚ := if false then ((7 : ℤ) : ℚ)
          else ((0 : ℤ) : ℚ) + (((7 : ℤ) : ℚ) - ((0 : ℤ) : ℚ)) * 1
        min (max (truncQ (((x : ℚ) - lo) * (2 ^ 16 - 1) / (hi - lo))) 0)
          (2 ^ 16 - 1))) ∧
    save_img_scale_numpy [0, 4, 7] 1 false =
      some (([0, 4, 7] : List ℤ).map (fun (x : ℤ) =>
        let lo : ℚ := if false then ((7 : ℤ) : ℚ) -
            (((7 : ℤ) : ℚ) - ((0 : ℤ) : ℚ)) * 1 else ((0 : ℤ) : ℚ)
        let hi : ℚ := if false then ((7 : ℤ) : ℚ)
          else ((0 : ℤ) : ℚ) + (((7 : ℤ) : ℚ) - ((0 : ℤ) : ℚ)) * 1
        if false then
          truncQ (min (max (((x : ℚ) - lo) * (2 ^ 16 - 1) / (hi - lo)) 0)
            (2 ^ 16 - 1))
        else
          truncQ (min (max
            (((wrap32 (wrap32 (x - 0) * (2 ^ 16 - 1)) : ℤ) : ℚ) / (hi - lo))
            0) (2 ^ 16 - 1)))) ∧
    ((∀ x ∈ ([0, 4, 7] : List ℤ),
        wrap32 (wrap32 (x - 0) * (2 ^ 16 - 1)) = (x - 0) * (2 ^ 16 - 1)) →
      save_img_scale_numpy [0, 4, 7] 1 false =
        save_img_scale_nonumpy [0, 4, 7] 1 false)) :=
  ⟨by decide, by decide, by decide, by decide,
   c4_amended_scale_formula [0, 4, 7] 1 false 0 7 (by decide) (by decide)
     (by decide) (by decide)⟩

/-- For one pass over the data-key regions, the output has one entry per
region schema entry, in document order, each stamped with the current
`key_iter` and the `index` and `label` of the schema entry. -/
theorem container_regions_pass_spec :
    ∀ fuel dkey chunk dts fis i visited res v2,
      container_regions_pass fuel chunk dkey dts fis i visited =
        some (res, v2) →
      res.length = dkey.length ∧
      ∀ j, j < dkey.length →
        ∃ e re, res.get? j = some e ∧ dkey.get? j = some re ∧
          e.key_iter = i ∧ e.region_idx = re.index ∧ e.label = re.label := by
  intro fuel
  induction fuel with
  | zero =>
    intro dkey chunk dts fis i visited res v2 h
    exact Option.noConfusion h
  | succ n ih =>
    intro dkey chunk dts fis i visited res v2 h
    cases dkey with
    | nil =>
      simp only [container_regions_pass] at h
      injection h with h1
      injection h1 with hres hv
      subst hres
      exact ⟨rfl, fun j hj => absurd hj (by simp)⟩
    | cons r rs =>
      simp only [container_regions_pass] at h
      cases hp : process_data_region n r chunk fis dts visited with
      | none => rw [hp] at h; exact Option.noConfusion h
      | some p =>
        obtain ⟨rd, v1⟩ := p
        rw [hp] at h
        dsimp only at h
        cases ht : container_regions_pass n chunk rs dts fis i v1 with
        | none => rw [ht] at h; exact Option.noConfusion h
        | some q =>
          obtain ⟨tail, vtail⟩ := q
          rw [ht] at h
          dsimp only at h
          injection h with h1
          injection h1 with hres hv
          obtain ⟨hlen, hidx⟩ := ih rs chunk dts fis i v1 tail vtail ht
          subst hres
          constructor
          · simp [hlen]
          · intro j hj
            cases j with
            | zero => exact ⟨_, r, rfl, rfl, rfl, rfl, rfl⟩
            | succ jj =>
              have hjj : jj < rs.length := by simpa using hj
              obtain ⟨e, re, he, hre, h1, h2, h3⟩ := hidx jj hjj
              exact ⟨e, re, by simpa using he, by simpa using hre,
                h1, h2, h3⟩

/-- Across the chunk iterations, the output is `cnt` concatenated passes:
entry `q * |data_key| + j` comes from chunk `i + q` and region `j`. -/
theorem container_key_iters_spec :
    ∀ fuel cnt payload dklen dkey dts fis i visited res v2,
      container_key_iters fuel payload dklen dkey dts fis i cnt visited =
        some (res, v2) →
      res.length = cnt * dkey.length ∧
      ∀ q j, q < cnt → j < dkey.length →
        ∃ e re, res.get? (q * dkey.length + j) = some e ∧
          dkey.get? j = some re ∧
          e.key_iter = i + q ∧ e.region_idx = re.index ∧
          e.label = re.label := by
  intro fuel
  induction fuel with
  | zero =>
    intro cnt payload dklen dkey dts fis i visited res v2 h
    exact Option.noConfusion h
  | succ n ih =>
    intro cnt payload dklen dkey dts fis i visited res v2 h
    cases cnt with
    | zero =>
      simp only [container_key_iters] at h
      injection h with h1
      injection h1 with hres hv
      subst hres
      exact ⟨by simp, fun q j hq _ => absurd hq (by omega)⟩
    | succ cnt =>
      simp only [container_key_iters] at h
      cases hpass : container_regions_pass n
          (pySlice payload (i * dklen) ((i + 1) * dklen)) dkey dts fis i
          visited with
      | none => rw [hpass] at h; exact Option.noConfusion h
      | some p =>
        obtain ⟨regs, v1⟩ := p
        rw [hpass] at h
        dsimp only at h
        cases hrest : container_key_iters n payload dklen dkey dts fis
            (i + 1) cnt v1 with
        | none => rw [hrest] at h; exact Option.noConfusion h
        | some q0 =>
          obtain ⟨tail, v3⟩ := q0
          rw [hrest] at h
          dsimp only at h
          injection h with h1
          injection h1 with hres hv
          subst hres
          obtain ⟨hlen1, hidx1⟩ := container_regions_pass_spec n dkey
            (pySlice payload (i * dklen) ((i + 1) * dklen)) dts fis i
            visited regs v1 hpass
          obtain ⟨hlen2, hidx2⟩ := ih cnt payload dklen dkey dts fis
            (i + 1) v1 tail v3 hrest
          constructor
          · simp only [List.length_append, hlen1, hlen2, Nat.succ_mul]
            omega
          · intro q j hq hj
            cases q with
            | zero =>
              obtain ⟨e, re, he, hre, h1, h2, h3⟩ := hidx1 j hj
              refine ⟨e, re, ?_, hre, by omega, h2, h3⟩
              rw [List.get?_append (by omega)]
              simpa using he
            | succ q =>
              obtain ⟨e, re, he, hre, h1, h2, h3⟩ :=
                hidx2 q j (by omega) hj
              refine ⟨e, re, ?_, hre, by omega, h2, h3⟩
              rw [List.get?_append_right (by
                simp only [hlen1, Nat.succ_mul]
                omega)]
              rw [hlen1]
              have harith : (q + 1) * dkey.length + j - dkey.length =
                  q * dkey.length + j := by
                simp only [Nat.succ_mul]
                omega
              rw [harith]
              exact he

/-- C1 (confirmed): for a data-container field whose payload length is
`k` times the `total_bytes` of its item schema, decoding produces exactly
`k * |RegionSchema|` regions, in document order: the entry at position
`q * |RegionSchema| + j` carries `key_iter = q` and repeats the
`region_idx` (and label) of region `j` on every cycle, `key_iter` taking every value
`0 .. k-1`. -/
theorem c1_data_key_multiplication (fuel : ℕ) (field_info : FieldInfo)
    (data_types : DataTypes) (field_ids : FieldIndex) (visited : List ℕ)
    (res : List RegionOut) (v2 : List ℕ) (schema : ItemSchemaEntry)
    (dk_field : FieldInfo) (data_key : List RegionSchemaEntry) (k : ℕ)
    (hs : data_types field_info.ftype = some schema)
    (hf : field_ids schema.data_key_ref = some dk_field)
    (hr : dk_field.regions = some data_key)
    (ht : 0 < schema.total_bytes)
    (hk : field_info.payload.length = k * schema.total_bytes)
    (hp : process_payload_data_container fuel field_info data_types
      field_ids visited = some (res, v2)) :
    res.length = k * data_key.length ∧
    ∀ q j, q < k → j < data_key.length →
      ∃ e re, res.get? (q * data_key.length + j) = some e ∧
        data_key.get? j = some re ∧
        e.key_iter = q ∧ e.region_idx = re.index ∧ e.label = re.label := by
  cases fuel with
  | zero => exact Option.noConfusion hp
  | succ n =>
    simp only [process_payload_data_container] at hp
    rw [hs] at hp
    dsimp only at hp
    rw [hf] at hp
    dsimp only at hp
    rw [hr] at hp
    dsimp only at hp
    rw [if_neg (by omega)] at hp
    have hmod : field_info.payload.length % schema.total_bytes = 0 := by
      rw [hk]
      exact Nat.mul_mod_left k schema.total_bytes
    rw [if_neg (by omega)] at hp
    have hdiv : field_info.payload.length / schema.total_bytes = k := by
      rw [hk]
      exact Nat.mul_div_cancel k ht
    rw [hdiv] at hp
    obtain ⟨hlen, hidx⟩ := container_key_iters_spec n k field_info.payload
      schema.total_bytes data_key data_types field_ids 0 visited res v2 hp
    refine ⟨hlen, fun q j hq hj => ?_⟩
    obtain ⟨e, re, he, hre, h1, h2, h3⟩ := hidx q j hq hj
    exact ⟨e, re, he, hre, by omega, h2, h3⟩

/-- A one-region data key (unknown data type 1000, so region decoding has
no side conditions) used by the C1 witness. -/
def c1Region : RegionSchemaEntry :=
  { data_type := 1000, label := strCp "a", index := 5, num_words := 1,
    byte_offset := 0, word_size := 2, ref_field_type := 0 }

/-- A data-container field of type 200 with a 4-byte payload (twice the
2-byte data-key width) used by the C1 witness. -/
def c1Field : FieldInfo :=
  { ftype := 200, fid := 77, payload := [1, 2, 3, 4], regions := none }

/-- The item-schema map of the C1 witness: field type 200 is a container
of total width 2 whose data key is field 9. -/
def c1Types : DataTypes :=
  fun n => if n = 200 then
    some { num_regions := 1, data_key_ref := 9, total_bytes := 2,
           label := strCp "item" }
  else none

/-- The field index of the C1 witness: field 9 is the processed Type-100
data key holding `c1Region`. -/
def c1Ids : FieldIndex :=
  fun n => if n = 9 then
    some { ftype := 100, fid := 9, payload := [], regions := some [c1Region] }
  else none

/-- C1 (witness): decoding the concrete 4-byte container produces
2 × 1 regions with `key_iter = 0, 1` and `region_idx = 5` on both
cycles. -/
theorem c1_data_key_multiplication_witness :
    ∃ res v2,
      process_payload_data_container 6 c1Field c1Types c1Ids [] =
        some (res, v2) ∧
      res.length = 2 * ([c1Region] : List RegionSchemaEntry).length ∧
      ∀ q j, q < 2 → j < ([c1Region] : List RegionSchemaEntry).length →
        ∃ e re, res.get? (q * ([c1Region] : List RegionSchemaEntry).length
            + j) = some e ∧
          ([c1Region] : List RegionSchemaEntry).get? j = some re ∧
          e.key_iter = q ∧ e.region_idx = re.index ∧ e.label = re.label := by
  refine ⟨_, _, rfl, ?_, ?_⟩
  · exact (c1_data_key_multiplication 6 c1Field c1Types c1Ids [] _ _
      { num_regions := 1, data_key_ref := 9, total_bytes := 2,
        label := strCp "item" }
      { ftype := 100, fid := 9, payload := [], regions := some [c1Region] }
      [c1Region] 2 rfl rfl rfl (by decide) (by decide) rfl).1
  · exact (c1_data_key_multiplication 6 c1Field c1Types c1Ids [] _ _
      { num_regions := 1, data_key_ref := 9, total_bytes := 2,
        label := strCp "item" }
      { ftype := 100, fid := 9, payload := [], regions := some [c1Region] }
      [c1Region] 2 rfl rfl rfl (by decide) (by decide) rfl).2

/-- C9 (confirmed): on a Reader whose pixel cache is already loaded,
`get_img_data(invert=True)` returns a freshly built inverted list and
leaves the cached `img_data` unchanged, so a later
`get_img_data(invert=False)` on the resulting state returns the original
non-inverted pixels.  (`getSize` abstracts `_get_img_size`, which only
reads the buffer and assigns the two size attributes.) -/
theorem c9_invert_leaves_cache (getSize : List ℕ → Option (ℕ × ℕ))
    (s : ReaderState) (d : List ℤ) (x y : ℕ)
    (hd : s.img_data = some d) (hg : getSize s.in_bytes = some (x, y)) :
    ∃ s1, get_img_data getSize s true =
        some (s1, (s1.img_size_x, s1.img_size_y, invert_pixels d)) ∧
      s1.img_data = some d ∧ s1.in_bytes = s.in_bytes ∧
      get_img_data getSize s1 false =
        some (s1, (s1.img_size_x, s1.img_size_y, d)) := by
  cases hcond : ((match s.img_size_x with
      | some n => decide (n ≠ 0)
      | none => false) || s.img_size_y.isNone) with
  | true =>
    refine ⟨{ s with img_size_x := some x, img_size_y := some y },
      ?_, ?_, ?_, ?_⟩
    · simp only [get_img_data, hcond]
      simp [hg, hd]
    · simpa using hd
    · rfl
    · by_cases hx : x = 0
      · simp [get_img_data, hx, hd]
      · simp [get_img_data, hx, hd, hg]
  | false =>
    refine ⟨s, ?_, hd, rfl, ?_⟩
    · simp only [get_img_data, hcond]
      simp [hd]
    · simp only [get_img_data, hcond]
      simp [hd]

/-- C9 (witness): the frame effect at a concrete Reader state with a
two-pixel cache. -/
theorem c9_invert_leaves_cache_witness :
    (({ in_bytes := [], data_start := fun _ => none,
        data_len := fun _ => none, img_size_x := some 2,
        img_size_y := some 1, img_data := some [3, 100] } :
        ReaderState).img_data = some [3, 100]) ∧
    (∃ s1, get_img_data (fun _ => some (2, 1))
        { in_bytes := [], data_start := fun _ => none,
          data_len := fun _ => none, img_size_x := some 2,
          img_size_y := some 1, img_data := some [3, 100] } true =
        some (s1, (s1.img_size_x, s1.img_size_y,
          invert_pixels [3, 100])) ∧
      s1.img_data = some [3, 100] ∧
      s1.in_bytes = [] ∧
      get_img_data (fun _ => some (2, 1)) s1 false =
        some (s1, (s1.img_size_x, s1.img_size_y, [3, 100]))) :=
  ⟨rfl, c9_invert_leaves_cache (fun _ => some (2, 1)) _ [3, 100] 2 1 rfl rfl⟩

theorem utf8DecodeAux_ascii (repl : Bool) :
    ∀ fuel bs, bs.length ≤ fuel → (∀ b ∈ bs, b < 128) →
      utf8DecodeAux fuel repl bs = bs := by
  intro fuel
  induction fuel with
  | zero =>
    intro bs h1 _
    cases bs with
    | nil => rfl
    | cons b rest => simp at h1
  | succ n ih =>
    intro bs h1 h2
    cases bs with
    | nil => rfl
    | cons b rest =>
      have hb : b < 128 := h2 b (List.mem_cons_self b rest)
      simp only [utf8DecodeAux, if_pos hb]
      rw [ih rest (by simpa using Nat.le_of_succ_le_succ (by simpa using h1))
        (fun x hx => h2 x (List.mem_cons_of_mem _ hx))]

/-- UTF-8 decoding is the identity on pure-ASCII byte lists. -/
theorem utf8Decode_ascii (repl : Bool) (bs : List ℕ)
    (h : ∀ b ∈ bs, b < 128) : utf8Decode repl bs = bs :=
  utf8DecodeAux_ascii repl bs.length bs le_rfl h

/-- C3 (amended): for a decoded Reference region (data_type 15 or 17)
whose raw slice is a single little-endian u32: a zero value gives
`interp = None`; a non-zero value whose target field has type 16 gives
`interp` equal to the UTF-8 (`errors="ignore"`) decoding of the payload
of the target field with only its final byte dropped.  That string is non-empty with
no trailing NUL when the payload has at least 2 bytes, is ASCII, and ends
in exactly one NUL — but not in general (see the counterexample). -/
theorem c3_amended_reference_resolution (fuel : ℕ)
    (region : RegionSchemaEntry) (payload : List ℕ)
    (field_ids : FieldIndex) (data_types : DataTypes) (visited : List ℕ)
    (b0 b1 b2 b3 : ℕ)
    (hdt : region.data_type = 15 ∨ region.data_type = 17)
    (hraw : pySlice payload region.byte_offset
        (region.byte_offset + region.word_size * region.num_words) =
      [b0, b1, b2, b3]) :
    (leValue [b0, b1, b2, b3] = 0 →
      process_data_region (fuel + 1) region payload field_ids data_types
          visited =
        some (⟨[b0, b1, b2, b3], .vInt (leValue [b0, b1, b2, b3]),
          .iNone⟩, visited)) ∧
    (∀ f, leValue [b0, b1, b2, b3] ≠ 0 →
      field_ids (leValue [b0, b1, b2, b3]) = some f → f.ftype = 16 →
      process_data_region (fuel + 1) region payload field_ids data_types
          visited =
        some (⟨[b0, b1, b2, b3], .vInt (leValue [b0, b1, b2, b3]),
          .iStr (utf8Decode false f.payload.dropLast)⟩, visited) ∧
      (2 ≤ f.payload.length → (∀ b ∈ f.payload, b < 128) →
        f.payload.dropLast.getLast? ≠ some 0 →
        utf8Decode false f.payload.dropLast ≠ [] ∧
          (utf8Decode false f.payload.dropLast).getLast? ≠ some 0)) := by
  constructor
  · intro h0
    rcases hdt with h | h <;>
      simp [process_data_region, hraw, h, unpack_uint32, structUnpack,
        leWordsN, collapseInt, h0]
  · intro f hne hf h16
    constructor
    · rcases hdt with h | h <;>
      simp [process_data_region, hraw, h, unpack_uint32, structUnpack,
        leWordsN, collapseInt, hne, hf, h16]
    · intro hlen hascii hlast
      have hid : utf8Decode false f.payload.dropLast = f.payload.dropLast :=
        utf8Decode_ascii false _
          (fun b hb => hascii b (List.dropLast_subset _ hb))
      rw [hid]
      refine ⟨?_, hlast⟩
      have : f.payload.dropLast.length = f.payload.length - 1 :=
        List.length_dropLast _
      intro hc
      rw [hc] at this
      simp at this
      omega

/-- The Reference-region schema used by the C3 counterexample: data_type
17, a 4-byte slice at offset 0. -/
def c3Region : RegionSchemaEntry :=
  { data_type := 17, label := strCp "ref", index := 0, num_words := 1,
    byte_offset := 0, word_size := 4, ref_field_type := 0 }

/-- The field index of the C3 counterexample: field 7 is a String field
(type 16) whose payload is two NUL bytes. -/
def c3Ids : FieldIndex :=
  fun n => if n = 7 then
    some { ftype := 16, fid := 7, payload := [0, 0], regions := none }
  else none

/-- C3 (counterexample): a Reference region pointing at a type-16 field
whose payload is `b"\x00\x00"` decodes to `interp = "\x00"` — a string
that still ends in a NUL character, contradicting the claim that `interp`
always has no trailing NUL (dropping the single final payload byte does
not strip all trailing NULs; a payload of `b"\x00"` would likewise give
an empty `interp`, contradicting non-emptiness). -/
theorem c3_counterexample_trailing_nul :
    process_data_region 1 c3Region [7, 0, 0, 0] c3Ids (fun _ => none) [] =
      some (⟨[7, 0, 0, 0], .vInt 7, .iStr [0]⟩, []) ∧
    (([0] : List ℕ) ≠ []) ∧ (([0] : List ℕ).getLast? = some 0) :=
  ⟨rfl, by decide, by decide⟩

/-- C3 (witness for the amended theorem): both branches at concrete
inputs — value 0 yields `interp = None`; value 7 pointing at a type-16
field with ASCII payload `b"ok\x00"` yields `interp = "ok"`, non-empty
with no trailing NUL. -/
theorem c3_amended_witness :
    (pySlice [0, 0, 0, 0] c3Region.byte_offset
        (c3Region.byte_offset + c3Region.word_size * c3Region.num_words) =
      [0, 0, 0, 0]) ∧
    process_data_region 1 c3Region [0, 0, 0, 0]
        (fun n => if n = 7 then
          some { ftype := 16, fid := 7, payload := [111, 107, 0],
                 regions := none }
        else none) (fun _ => none) [] =
      some (⟨[0, 0, 0, 0], .vInt (leValue [0, 0, 0, 0]), .iNone⟩, []) ∧
    process_data_region 1 c3Region [7, 0, 0, 0]
        (fun n => if n = 7 then
          some { ftype := 16, fid := 7, payload := [111, 107, 0],
                 regions := none }
        else none) (fun _ => none) [] =
      some (⟨[7, 0, 0, 0], .vInt (leValue [7, 0, 0, 0]),
        .iStr (utf8Decode false ([111, 107, 0] : List ℕ).dropLast)⟩, []) ∧
    utf8Decode false ([111, 107, 0] : List ℕ).dropLast ≠ [] ∧
    (utf8Decode false ([111, 107, 0] : List ℕ).dropLast).getLast? ≠
      some 0 := by
  refine ⟨by decide,
    (c3_amended_reference_resolution 0 c3Region [0, 0, 0, 0] _ _ [] 0 0 0 0
      (Or.inr rfl) (by decide)).1 (by decide),
    ((c3_amended_reference_resolution 0 c3Region [7, 0, 0, 0] _ _ [] 7 0 0 0
      (Or.inr rfl) (by decide)).2
      { ftype := 16, fid := 7, payload := [111, 107, 0], regions := none }
      (by decide) (by decide) rfl).1,
    ?_, ?_⟩
  · have := ((c3_amended_reference_resolution 0 c3Region [7, 0, 0, 0]
      (fun n => if n = 7 then
        some { ftype := 16, fid := 7, payload := [111, 107, 0],
               regions := none }
      else none) (fun _ => none) [] 7 0 0 0
      (Or.inr rfl) (by decide)).2
      { ftype := 16, fid := 7, payload := [111, 107, 0], regions := none }
      (by decide) (by decide) rfl).2 (by decide) (by decide) (by decide)
    exact this.1
  · have := ((c3_amended_reference_resolution 0 c3Region [7, 0, 0, 0]
      (fun n => if n = 7 then
        some { ftype := 16, fid := 7, payload := [111, 107, 0],
               regions := none }
      else none) (fun _ => none) [] 7 0 0 0
      (Or.inr rfl) (by decide)).2
      { ftype := 16, fid := 7, payload := [111, 107, 0], regions := none }
      (by decide) (by decide) rfl).2 (by decide) (by decide) (by decide)
    exact this.2

end Biorad
